import Mathlib

/-!
Verification of the quick4lio portfolio application (src/app.py): the
tiered portfolio data model, its serialization through `json.dumps` /
`parse_json`, and the plan-selection / edit / view-dispatch handlers.

The embedding models Python values shallowly: JSON values are a mutual
inductive family (`Json`, `JsonList`, `JsonObj`), Python `str` is Lean
`String` (a sequence of Unicode scalar values), absent form fields and
NULL columns are `Option`.  The serializer `dumps` mirrors
`json.dumps` with its default arguments (`ensure_ascii=True`,
separators `", "` and `": "`); the parser `parseValue` mirrors
`json.loads` on the fragment of JSON this application ever stores:
null, booleans, strings (with the full escape grammar including
surrogate pairs), arrays and objects.  Numeric literals and lone
surrogates never occur in this application's data and are outside the
modelled fragment.
-/

/-- The opening-brace character. -/
def lbraceChar : Char := Char.ofNat 123

/-- The closing-brace character. -/
def rbraceChar : Char := Char.ofNat 125

/-- The double-quote character. -/
def quoteChar : Char := Char.ofNat 34

/-- The backslash character. -/
def backslashChar : Char := Char.ofNat 92

mutual

/-- JSON values, restricted to the fragment this application stores
(no numeric literals appear anywhere in src/app.py's portfolio data). -/
inductive Json where
  | null : Json
  | bool : Bool → Json
  | str : String → Json
  | arr : JsonList → Json
  | obj : JsonObj → Json

/-- A list of JSON values (the payload of `Json.arr`). -/
inductive JsonList where
  | nil : JsonList
  | cons : Json → JsonList → JsonList

/-- An object's members in insertion order, as Python `dict` preserves
insertion order and `json.dumps` serializes in that order. -/
inductive JsonObj where
  | nil : JsonObj
  | cons : String → Json → JsonObj → JsonObj

end

deriving instance DecidableEq for Json

/-- Build a `JsonList` from a Lean list. -/
def JsonList.ofList : List Json → JsonList
  | [] => .nil
  | x :: xs => .cons x (JsonList.ofList xs)

/-- Build a `JsonObj` from a Lean association list. -/
def JsonObj.ofList : List (String × Json) → JsonObj
  | [] => .nil
  | (k, v) :: kvs => .cons k v (JsonObj.ofList kvs)

/-- `Json.arr` from a Lean list. -/
def jarr (xs : List Json) : Json := .arr (.ofList xs)

/-- `Json.obj` from a Lean association list. -/
def jobj (kvs : List (String × Json)) : Json := .obj (.ofList kvs)

/-- The keys of an object's member list, in order. -/
def JsonObj.keys : JsonObj → List String
  | .nil => []
  | .cons k _ kvs => k :: kvs.keys

/-- Key lookup in an object's member list (first match, as Python
`dict` access after `json.loads`, where the builder never duplicates keys). -/
def JsonObj.lookup : JsonObj → String → Option Json
  | .nil, _ => none
  | .cons k v kvs, key => if k = key then some v else kvs.lookup key

/-- Keys of a JSON value: the member keys when it is an object. -/
def jsonKeys : Json → List String
  | .obj kvs => kvs.keys
  | _ => []

/-- Key lookup on a JSON value: member lookup when it is an object. -/
def jsonGet : Json → String → Option Json
  | .obj kvs, key => kvs.lookup key
  | _, _ => none

/-- Four lowercase hex digits, as Python's `'\\u%04x'` formatting used by
`json.dumps(ensure_ascii=True)` for `n < 0x10000`. -/
def toHex4 (n : Nat) : List Char :=
  [Nat.digitChar (n / 4096 % 16), Nat.digitChar (n / 256 % 16),
   Nat.digitChar (n / 16 % 16), Nat.digitChar (n % 16)]

/-- Escape one character as CPython's `json.encoder` `ESCAPE_ASCII`
replacement does with `ensure_ascii=True`: the two-character escapes for
quote, backslash and the named control characters, `\\u00xx` for the other
control characters, the character itself for printable ASCII, `\\uxxxx`
for the rest of the BMP and a surrogate pair for astral characters. -/
def escapeChar (c : Char) : List Char :=
  if c = quoteChar then [backslashChar, quoteChar]
  else if c = backslashChar then [backslashChar, backslashChar]
  else if c = Char.ofNat 8 then [backslashChar, 'b']
  else if c = Char.ofNat 9 then [backslashChar, 't']
  else if c = Char.ofNat 10 then [backslashChar, 'n']
  else if c = Char.ofNat 12 then [backslashChar, 'f']
  else if c = Char.ofNat 13 then [backslashChar, 'r']
  else if c.toNat < 32 then backslashChar :: 'u' :: toHex4 c.toNat
  else if c.toNat ≤ 126 then [c]
  else if c.toNat < 65536 then backslashChar :: 'u' :: toHex4 c.toNat
  else
    backslashChar :: 'u' :: toHex4 (55296 + (c.toNat - 65536) / 1024) ++
      backslashChar :: 'u' :: toHex4 (56320 + (c.toNat - 65536) % 1024)

/-- The serialized body of a string literal (escapes applied, no quotes). -/
def dumpStrBody : List Char → List Char
  | [] => []
  | c :: cs => escapeChar c ++ dumpStrBody cs

/-- A serialized string literal with its quotes. -/
def dumpStr (s : String) : List Char :=
  quoteChar :: dumpStrBody s.data ++ [quoteChar]

mutual

/-- Serialize a JSON value exactly as `json.dumps` with default arguments:
`", "` between items, `": "` after keys, `ensure_ascii` escapes. -/
def dumpsVal : Json → List Char
  | .null => "null".data
  | .bool true => "true".data
  | .bool false => "false".data
  | .str s => dumpStr s
  | .arr .nil => "[]".data
  | .arr (.cons x xs) => '[' :: (dumpsVal x ++ dumpsElemsRest xs) ++ [']']
  | .obj .nil => [lbraceChar, rbraceChar]
  | .obj (.cons k v kvs) =>
      lbraceChar :: (dumpStr k ++ ':' :: ' ' :: dumpsVal v ++ dumpsMembersRest kvs) ++ [rbraceChar]

/-- Serialize the remaining array elements, each preceded by `", "`. -/
def dumpsElemsRest : JsonList → List Char
  | .nil => []
  | .cons x xs => ',' :: ' ' :: dumpsVal x ++ dumpsElemsRest xs

/-- Serialize the remaining object members, each preceded by `", "`. -/
def dumpsMembersRest : JsonObj → List Char
  | .nil => []
  | .cons k v kvs => ',' :: ' ' :: dumpStr k ++ ':' :: ' ' :: dumpsVal v ++ dumpsMembersRest kvs

end

/-- `json.dumps` of a value, as a Python string. -/
def dumps (v : Json) : String := String.mk (dumpsVal v)

/-- JSON whitespace, as `json.decoder.WHITESPACE`: space, tab, LF, CR. -/
def isWsChar (c : Char) : Bool :=
  c = Char.ofNat 32 || c = Char.ofNat 9 || c = Char.ofNat 10 || c = Char.ofNat 13

/-- Skip leading JSON whitespace. -/
def skipWs : List Char → List Char
  | [] => []
  | c :: cs => if isWsChar c then skipWs cs else c :: cs

/-- The value of a hex digit; `json.loads` accepts both cases. -/
def hexVal (c : Char) : Option Nat :=
  if '0' ≤ c ∧ c ≤ '9' then some (c.toNat - 48)
  else if 'a' ≤ c ∧ c ≤ 'f' then some (c.toNat - 87)
  else if 'A' ≤ c ∧ c ≤ 'F' then some (c.toNat - 55)
  else none

/-- The single-character escapes of the JSON string grammar
(`json.decoder.BACKSLASH`), `\\u` excluded. -/
def escDecode (c : Char) : Option Char :=
  if c = quoteChar then some quoteChar
  else if c = backslashChar then some backslashChar
  else if c = '/' then some '/'
  else if c = 'b' then some (Char.ofNat 8)
  else if c = 'f' then some (Char.ofNat 12)
  else if c = 'n' then some (Char.ofNat 10)
  else if c = 'r' then some (Char.ofNat 13)
  else if c = 't' then some (Char.ofNat 9)
  else none

/-- Decode exactly four hex digits into their value. -/
def decodeHex4 : List Char → Option (Nat × List Char)
  | a :: b :: c :: d :: rest =>
    match hexVal a, hexVal b, hexVal c, hexVal d with
    | some h₁, some h₂, some h₃, some h₄ =>
      some (h₁ * 4096 + h₂ * 256 + h₃ * 16 + h₄, rest)
    | _, _, _, _ => none
  | _ => none

/-- Decode a `\\uXXXX` escape (the `\\u` already consumed): four hex
digits; a high surrogate is joined with an immediately following
low-surrogate escape, as `json.decoder.py_scanstring` does.  Returns the
decoded character and the unconsumed remainder.  (A lone surrogate —
which Python would keep as an unpaired surrogate code unit — has no Lean
`Char` representation and never occurs in this application's data;
`Char.ofNat` maps it to the default character.) -/
def decodeUnicodeEscape (l : List Char) : Option (Char × List Char) :=
  match decodeHex4 l with
  | none => none
  | some (n, rest₂) =>
    if 55296 ≤ n ∧ n < 56320 then
      match rest₂ with
      | b₁ :: u₁ :: rest₂' =>
        if b₁ = backslashChar then
          if u₁ = 'u' then
            match decodeHex4 rest₂' with
            | some (m, rest₃) =>
              if 56320 ≤ m ∧ m < 57344 then
                some (Char.ofNat (65536 + (n - 55296) * 1024 + (m - 56320)), rest₃)
              else some (Char.ofNat n, rest₂)
            | none => some (Char.ofNat n, rest₂)
          else some (Char.ofNat n, rest₂)
        else some (Char.ofNat n, rest₂)
      | _ => some (Char.ofNat n, rest₂)
    else some (Char.ofNat n, rest₂)

/-- Scan a string literal's body after the opening quote, as
`json.decoder.py_scanstring` with `strict=True`: a closing quote ends the
literal, a backslash starts an escape (the single-character table or a
`\\uXXXX` escape), raw control characters are rejected, any other
character stands for itself.  The fuel only bounds the recursion — one
unit per decoded character — and every call site supplies more than the
input length, which no scan can exhaust. -/
def parseStringBody : Nat → List Char → Option (List Char × List Char)
  | 0, _ => none
  | _, [] => none
  | fuel + 1, c :: rest =>
    if c = quoteChar then some ([], rest)
    else if c = backslashChar then
      match rest with
      | [] => none
      | e :: rest₁ =>
        if e = 'u' then
          match decodeUnicodeEscape rest₁ with
          | some (ch, rest₂) => (parseStringBody fuel rest₂).map (fun p => (ch :: p.1, p.2))
          | none => none
        else
          match escDecode e with
          | some ch => (parseStringBody fuel rest₁).map (fun p => (ch :: p.1, p.2))
          | none => none
    else if c.toNat < 32 then none
    else (parseStringBody fuel rest).map (fun p => (c :: p.1, p.2))

mutual

/-- Parse one JSON value after skipping leading whitespace, as
`json.scanner.py_make_scanner`'s `_scan_once` on the modelled fragment
(numeric literals excluded: this application never stores them).  The
fuel only bounds recursion; `loads` supplies more than any input needs. -/
def parseValue : Nat → List Char → Option (Json × List Char)
  | 0, _ => none
  | fuel + 1, input =>
    match skipWs input with
    | [] => none
    | c :: rest =>
      if c = quoteChar then
        (parseStringBody (rest.length + 1) rest).map (fun p => (.str (String.mk p.1), p.2))
      else if c = '[' then
        match skipWs rest with
        | [] => none
        | d :: rest₂ =>
          if d = ']' then some (.arr .nil, rest₂)
          else (parseElems fuel (d :: rest₂)).map (fun p => (.arr p.1, p.2))
      else if c = lbraceChar then
        match skipWs rest with
        | [] => none
        | d :: rest₂ =>
          if d = rbraceChar then some (.obj .nil, rest₂)
          else (parseMembers fuel (d :: rest₂)).map (fun p => (.obj p.1, p.2))
      else if c = 'n' then
        match rest with
        | 'u' :: 'l' :: 'l' :: r => some (.null, r)
        | _ => none
      else if c = 't' then
        match rest with
        | 'r' :: 'u' :: 'e' :: r => some (.bool true, r)
        | _ => none
      else if c = 'f' then
        match rest with
        | 'a' :: 'l' :: 's' :: 'e' :: r => some (.bool false, r)
        | _ => none
      else none

/-- Parse the elements of a non-empty array, positioned at the first
element, through the closing bracket. -/
def parseElems : Nat → List Char → Option (JsonList × List Char)
  | 0, _ => none
  | fuel + 1, input =>
    match parseValue fuel input with
    | none => none
    | some (v, rest) =>
      match skipWs rest with
      | [] => none
      | d :: rest₂ =>
        if d = ',' then (parseElems fuel rest₂).map (fun p => (.cons v p.1, p.2))
        else if d = ']' then some (.cons v .nil, rest₂)
        else none

/-- Parse the members of a non-empty object, positioned at the first key,
through the closing brace. -/
def parseMembers : Nat → List Char → Option (JsonObj × List Char)
  | 0, _ => none
  | fuel + 1, input =>
    match skipWs input with
    | [] => none
    | c :: rest =>
      if c = quoteChar then
        match parseStringBody (rest.length + 1) rest with
        | none => none
        | some (k, rest₂) =>
          match skipWs rest₂ with
          | [] => none
          | d :: rest₃ =>
            if d = ':' then
              match parseValue fuel rest₃ with
              | none => none
              | some (v, rest₄) =>
                match skipWs rest₄ with
                | [] => none
                | e :: rest₅ =>
                  if e = ',' then
                    (parseMembers fuel rest₅).map (fun p => (.cons (String.mk k) v p.1, p.2))
                  else if e = rbraceChar then some (.cons (String.mk k) v .nil, rest₅)
                  else none
            else none
      else none

end

/-- `json.loads` on the modelled fragment: parse one value, then require
only trailing whitespace, as `JSONDecoder.decode` ("Extra data" error
otherwise); `none` is the decode error. -/
def loads (s : String) : Option Json :=
  match parseValue (s.data.length + 1) s.data with
  | some (v, rest) => if skipWs rest = [] then some v else none
  | none => none

/-- `parse_json` from src/app.py lines 63-67: `json.loads` with
`JSONDecodeError` and `TypeError` (the `None` argument) both recovered
by returning the empty dict. -/
def parse_json : Option String → Json
  | none => jobj []
  | some s =>
    match loads s with
    | some v => v
    | none => jobj []

/-!
The application model.

Shallow embedding of the portfolio flow of src/app.py.  The only state
the modelled handlers touch is the current user's row, their zero-or-one
`Portfolio` row, and the primary-key counter the store uses for a fresh
`Portfolio` row.  Form data is the inbound mapping of recognized field
names to submitted string values, `none` for an absent field, as
`request.form.get` returns `None` exactly when the field is missing.
-/

/-- The recognized form fields of the edit-portfolio POST handler
(src/app.py lines 190-220). -/
structure FormData where
  name : Option String
  title : Option String
  bio : Option String
  project_name_1 : Option String
  project_desc_1 : Option String
  project_img_1 : Option String
  skills : Option String
  contact_email : Option String
  contact_phone : Option String
  portfolio_type : Option String
  home_content : Option String
  case_studies : Option String
  testimonials : Option String
  resume_link : Option String
  awards : Option String
deriving DecidableEq

/-- The `User` columns the portfolio flow reads or writes
(src/app.py lines 26-37). -/
structure UserRec where
  id : Nat
  subscription_type : String
deriving DecidableEq

/-- The `Portfolio` row (src/app.py lines 52-56). -/
structure PortfolioRec where
  id : Nat
  user_id : Nat
  portfolio_type : String
  sections_data : String
deriving DecidableEq

/-- The store state the modelled handlers touch: the current user, their
zero-or-one portfolio row (`db.ForeignKey` unique), and the next free
portfolio primary key. -/
structure AppState where
  user : UserRec
  portfolio : Option PortfolioRec
  nextPortfolioId : Nat
deriving DecidableEq

/-- The serialized empty record `'{}'` that a fresh `Portfolio` row's
`sections_data` is created with. -/
def emptyObjString : String := String.mk [lbraceChar, rbraceChar]

/-- Python's `str.split(',')` (a single-character explicit separator
never drops empty pieces): split at every comma, keeping empty pieces. -/
def splitCommaAux : List Char → List Char → List String
  | [], acc => [String.mk acc.reverse]
  | c :: rest, acc =>
    if c = ',' then String.mk acc.reverse :: splitCommaAux rest []
    else splitCommaAux rest (c :: acc)

/-- `s.split(',')` on a Python string. -/
def pySplitComma (s : String) : List String := splitCommaAux s.data []

/-- The `skills` value of src/app.py line 207:
`request.form.get('skills').split(',') if request.form.get('skills') else []`.
`None` and the empty string are both falsy, so an absent or empty field
yields the empty list; otherwise the field is comma-split, untrimmed. -/
def skillsList : Option String → List String
  | none => []
  | some s => if s = "" then [] else pySplitComma s

/-- Python whitespace as `str.strip()` removes it at the ends of a
string: space, tab, LF, VT, FF, CR (the ASCII cases). -/
def isPySpace (c : Char) : Bool :=
  c = Char.ofNat 32 || c = Char.ofNat 9 || c = Char.ofNat 10 ||
    c = Char.ofNat 11 || c = Char.ofNat 12 || c = Char.ofNat 13

/-- Python's `str.strip()`: drop whitespace from both ends. -/
def pyStrip (s : String) : String :=
  String.mk (((s.data.dropWhile isPySpace).reverse.dropWhile isPySpace).reverse)

/-- Modelled from the spec's words for the `skills` entry
("comma-split, trimmed"): split at commas, then trim surrounding
whitespace from each piece.  Stated from the spec only, for comparison
with the code's untrimmed split. -/
def specSkillsModel (s : String) : List String := (pySplitComma s).map pyStrip

/-- An optional form value as `json.dumps` serializes it: `None` becomes
`null`, a string stays a string. -/
def optJ : Option String → Json
  | none => Json.null
  | some s => Json.str s

/-- The record assembled by the edit-portfolio POST handler
(src/app.py lines 201-220): `header`, `about`, `projects` (one slot),
`skills` and `contact` unconditionally, `paid_pages` when the submitted
tier is `Paid` or `Premium`, and `premium_pages` additionally when it is
`Premium`.  Keys appear in the insertion order of the Python dict. -/
def buildData (f : FormData) (pt : String) : Json :=
  jobj ([("header", jobj [("name", optJ f.name), ("title", optJ f.title)]),
         ("about", jobj [("bio", optJ f.bio)]),
         ("projects", jarr [jobj [("name", optJ f.project_name_1),
                                  ("desc", optJ f.project_desc_1),
                                  ("image", optJ f.project_img_1)]]),
         ("skills", jarr ((skillsList f.skills).map Json.str)),
         ("contact", jobj [("email", optJ f.contact_email), ("phone", optJ f.contact_phone)])]
        ++ (if pt = "Paid" ∨ pt = "Premium"
            then [("paid_pages", jobj [("home_content", optJ f.home_content)])] else [])
        ++ (if pt = "Premium"
            then [("premium_pages", jobj [("case_studies", optJ f.case_studies),
                                          ("testimonials", optJ f.testimonials),
                                          ("resume_link", optJ f.resume_link),
                                          ("awards", optJ f.awards)])] else []))

/-- The `select_plan` route (src/app.py lines 166-181): a plan outside
the allow-list is rejected before any mutation; a valid plan is written
to `user.subscription_type` and, when a portfolio row exists, to
`portfolio.portfolio_type`, then committed.  The Boolean is whether the
operation was accepted. -/
def selectPlan (s : AppState) (plan_type : String) : AppState × Bool :=
  if plan_type = "Free" ∨ plan_type = "Paid" ∨ plan_type = "Premium" then
    ({ s with
        user := { s.user with subscription_type := plan_type },
        portfolio := s.portfolio.map (fun p => { p with portfolio_type := plan_type }) },
     true)
  else (s, false)

/-- The get-or-create access to the user's portfolio row (src/app.py
lines 192-196 and 231-235): return the existing row, or insert and
commit a fresh one with the given tier and an empty `sections_data`. -/
def getOrCreate (s : AppState) (tier : String) : AppState × PortfolioRec :=
  match s.portfolio with
  | some p => (s, p)
  | none =>
    let p : PortfolioRec :=
      { id := s.nextPortfolioId, user_id := s.user.id,
        portfolio_type := tier, sections_data := emptyObjString }
    ({ s with portfolio := some p, nextPortfolioId := s.nextPortfolioId + 1 }, p)

/-- The edit-portfolio POST handler (src/app.py lines 189-223): read the
submitted tier with default `'Free'`, get-or-create the portfolio row,
overwrite its `portfolio_type` with the submitted tier and its
`sections_data` with `json.dumps` of the assembled record, and commit. -/
def editPortfolioPost (s : AppState) (f : FormData) : AppState :=
  let pt := f.portfolio_type.getD "Free"
  let (s₁, p) := getOrCreate s pt
  { s₁ with
      portfolio := some { p with portfolio_type := pt,
                                 sections_data := dumps (buildData f pt) } }

/-- The commit-failure-aware edit-portfolio POST handler.  The
transactional store (an external collaborator) either commits or rolls
the open transaction back to the last committed state; `ok k` says
whether the `k`-th `db.session.commit()` the handler executes succeeds.
On a failed commit the exception propagates (`PersistenceError`), and
the `error` value carries the store state left behind — the state as of
the last successful commit.  The handler runs up to two commits: the
portfolio-creation commit of line 196 (only when no row existed) and
the save commit of line 223. -/
def editPortfolioFallible (s : AppState) (f : FormData) (ok : Nat → Bool) :
    Except AppState AppState :=
  let pt := f.portfolio_type.getD "Free"
  match s.portfolio with
  | none =>
    let p : PortfolioRec :=
      { id := s.nextPortfolioId, user_id := s.user.id,
        portfolio_type := pt, sections_data := emptyObjString }
    let s₁ : AppState :=
      { s with portfolio := some p, nextPortfolioId := s.nextPortfolioId + 1 }
    if ok 0 then
      let s₂ : AppState :=
        { s₁ with portfolio := some { p with portfolio_type := pt,
                                             sections_data := dumps (buildData f pt) } }
      if ok 1 then .ok s₂ else .error s₁
    else .error s
  | some p =>
    let s₂ : AppState :=
      { s with portfolio := some { p with portfolio_type := pt,
                                          sections_data := dumps (buildData f pt) } }
    if ok 0 then .ok s₂ else .error s

/-- The four presentations the public portfolio page can produce. -/
inductive ViewKind where
  | FreeView : ViewKind
  | PaidView : ViewKind
  | PremiumView : ViewKind
  | NoPortfolio : ViewKind
deriving DecidableEq

/-- The view selection of the `public_portfolio` route (src/app.py lines
253-270): no portfolio row renders the no-portfolio page; otherwise the
dispatch is strictly on `portfolio.portfolio_type`, and an unrecognized
value falls through to the same no-portfolio rendering
(`portfolio=None`), never an exception. -/
def selectView : Option PortfolioRec → ViewKind
  | none => .NoPortfolio
  | some p =>
    if p.portfolio_type = "Free" then .FreeView
    else if p.portfolio_type = "Paid" then .PaidView
    else if p.portfolio_type = "Premium" then .PremiumView
    else .NoPortfolio

deriving instance DecidableEq for Except

/-- A sample submitted form (tier field `Free`) used by the concrete
witnesses below. -/
def fSample : FormData :=
  { name := some "Ann", title := some "Dev", bio := some "Hi",
    project_name_1 := some "P1", project_desc_1 := none, project_img_1 := none,
    skills := some "go, rust", contact_email := some "a@x.com",
    contact_phone := some "", portfolio_type := some "Free",
    home_content := some "Welcome", case_studies := some "CS1",
    testimonials := none, resume_link := none, awards := none }

/-- The sample form submitted under tier `Premium`. -/
def fPremium : FormData := { fSample with portfolio_type := some "Premium" }

/-- The sample form submitted with a tier outside the allow-list. -/
def fEnterprise : FormData := { fSample with portfolio_type := some "Enterprise" }

/-- A stored `Premium` portfolio row whose sections hold paid and
premium pages. -/
def pPremium : PortfolioRec :=
  { id := 7, user_id := 1, portfolio_type := "Premium",
    sections_data := dumps (buildData fPremium "Premium") }

/-- A state whose user is on `Premium` and owns `pPremium`. -/
def sPremium : AppState :=
  { user := { id := 1, subscription_type := "Premium" },
    portfolio := some pPremium, nextPortfolioId := 8 }

/-- A state whose user owns no portfolio row yet. -/
def sNoPortfolio : AppState :=
  { user := { id := 1, subscription_type := "Free" },
    portfolio := none, nextPortfolioId := 1 }

mutual

/-- Node count of a JSON value, used only as a recursion budget in the
round-trip proof. -/
def jsize : Json → Nat
  | .null => 1
  | .bool _ => 1
  | .str _ => 1
  | .arr xs => 1 + jsizeL xs
  | .obj kvs => 1 + jsizeM kvs

def jsizeL : JsonList → Nat
  | .nil => 0
  | .cons x xs => 1 + jsize x + jsizeL xs

def jsizeM : JsonObj → Nat
  | .nil => 0
  | .cons _ v kvs => 1 + jsize v + jsizeM kvs

end

/-!
Round trip of the serializer through the parser.

`json.dumps` output is parsed back to the exact value: first per
character of a string literal, then per string, then by induction on the
parser's recursion budget for whole values.
-/

theorem hexVal_digitChar : ∀ d : Nat, d < 16 → hexVal (Nat.digitChar d) = some d := by decide

theorem decodeHex4_toHex4 (n : Nat) (t : List Char) (hlt : n < 65536) :
    decodeHex4 (toHex4 n ++ t) = some (n, t) := by
  simp only [toHex4, List.cons_append, List.nil_append, decodeHex4]
  rw [hexVal_digitChar _ (by omega), hexVal_digitChar _ (by omega),
      hexVal_digitChar _ (by omega), hexVal_digitChar _ (by omega)]
  have e : n / 4096 % 16 * 4096 + n / 256 % 16 * 256 + n / 16 % 16 * 16 + n % 16 = n := by omega
  dsimp only
  rw [e]

theorem decodeUnicodeEscape_nonsur (n : Nat) (t : List Char) (hlt : n < 65536)
    (hns : ¬(55296 ≤ n ∧ n < 56320)) :
    decodeUnicodeEscape (toHex4 n ++ t) = some (Char.ofNat n, t) := by
  rw [decodeUnicodeEscape, decodeHex4_toHex4 n t hlt]
  dsimp only
  rw [if_neg hns]

theorem decodeUnicodeEscape_sur (hi lo : Nat) (t : List Char)
    (hhi : 55296 ≤ hi ∧ hi < 56320) (hlo : 56320 ≤ lo ∧ lo < 57344) :
    decodeUnicodeEscape (toHex4 hi ++ (backslashChar :: 'u' :: (toHex4 lo ++ t))) =
      some (Char.ofNat (65536 + (hi - 55296) * 1024 + (lo - 56320)), t) := by
  rw [decodeUnicodeEscape, decodeHex4_toHex4 hi _ (by omega)]
  dsimp only
  rw [if_pos hhi]
  simp only [toHex4, List.cons_append, List.nil_append, if_true]
  have h4 : decodeHex4 (Nat.digitChar (lo / 4096 % 16) :: Nat.digitChar (lo / 256 % 16) ::
      Nat.digitChar (lo / 16 % 16) :: Nat.digitChar (lo % 16) :: t) = some (lo, t) := by
    have := decodeHex4_toHex4 lo t (by omega)
    simpa [toHex4] using this
  rw [h4]
  dsimp only
  rw [if_pos hlo]

/-- A `Char` is a Unicode scalar value: outside the surrogate block and
below `0x110000`. -/
theorem char_valid_nat (c : Char) :
    c.toNat < 55296 ∨ (57343 < c.toNat ∧ c.toNat < 1114112) := c.valid

theorem parseStringBody_uescape (fuel : Nat) (l : List Char) :
    parseStringBody (fuel + 1) (backslashChar :: 'u' :: l) =
      match decodeUnicodeEscape l with
      | some (ch, rest₂) => (parseStringBody fuel rest₂).map (fun p => (ch :: p.1, p.2))
      | none => none := rfl

/-- The scanner undoes the encoder one character at a time. -/
theorem parseStringBody_escapeChar (c : Char) (fuel : Nat) (t : List Char) :
    parseStringBody (fuel + 1) (escapeChar c ++ t) =
      (parseStringBody fuel t).map (fun p => (c :: p.1, p.2)) := by
  by_cases h1 : c = quoteChar
  · subst h1; rfl
  by_cases h2 : c = backslashChar
  · subst h2; rfl
  by_cases h3 : c = Char.ofNat 8
  · subst h3; rfl
  by_cases h4 : c = Char.ofNat 9
  · subst h4; rfl
  by_cases h5 : c = Char.ofNat 10
  · subst h5; rfl
  by_cases h6 : c = Char.ofNat 12
  · subst h6; rfl
  by_cases h7 : c = Char.ofNat 13
  · subst h7; rfl
  by_cases h8 : c.toNat < 32
  · have hesc : escapeChar c = backslashChar :: 'u' :: toHex4 c.toNat := by
      simp only [escapeChar, if_neg h1, if_neg h2, if_neg h3, if_neg h4, if_neg h5, if_neg h6,
        if_neg h7, if_pos h8]
    rw [hesc]
    simp only [List.cons_append]
    rw [parseStringBody_uescape, decodeUnicodeEscape_nonsur c.toNat t (by omega) (by omega)]
    dsimp only
    rw [Char.ofNat_toNat]
  by_cases h9 : c.toNat ≤ 126
  · have hesc : escapeChar c = [c] := by
      simp only [escapeChar, if_neg h1, if_neg h2, if_neg h3, if_neg h4, if_neg h5, if_neg h6,
        if_neg h7, if_neg h8, if_pos h9]
    rw [hesc]
    simp only [List.cons_append, List.nil_append]
    rw [parseStringBody.eq_def]
    dsimp only
    rw [if_neg h1, if_neg h2, if_neg h8]
  by_cases h10 : c.toNat < 65536
  · have hesc : escapeChar c = backslashChar :: 'u' :: toHex4 c.toNat := by
      simp only [escapeChar, if_neg h1, if_neg h2, if_neg h3, if_neg h4, if_neg h5, if_neg h6,
        if_neg h7, if_neg h8, if_neg h9, if_pos h10]
    rw [hesc]
    simp only [List.cons_append]
    have hval := char_valid_nat c
    rw [parseStringBody_uescape, decodeUnicodeEscape_nonsur c.toNat t (by omega) (by omega)]
    dsimp only
    rw [Char.ofNat_toNat]
  · have hesc : escapeChar c =
        backslashChar :: 'u' :: toHex4 (55296 + (c.toNat - 65536) / 1024) ++
          backslashChar :: 'u' :: toHex4 (56320 + (c.toNat - 65536) % 1024) := by
      simp only [escapeChar, if_neg h1, if_neg h2, if_neg h3, if_neg h4, if_neg h5, if_neg h6,
        if_neg h7, if_neg h8, if_neg h9, if_neg h10]
    rw [hesc]
    have hval := char_valid_nat c
    simp only [List.cons_append, List.append_assoc]
    rw [parseStringBody_uescape,
      decodeUnicodeEscape_sur (55296 + (c.toNat - 65536) / 1024)
        (56320 + (c.toNat - 65536) % 1024) t ⟨by omega, by omega⟩ ⟨by omega, by omega⟩]
    dsimp only
    have hb : 65536 + (55296 + (c.toNat - 65536) / 1024 - 55296) * 1024 +
        (56320 + (c.toNat - 65536) % 1024 - 56320) = c.toNat := by omega
    rw [hb, Char.ofNat_toNat]

/-- The scanner undoes the encoder on a whole string body. -/
theorem parseStringBody_dumpStrBody (s : List Char) :
    ∀ (fuel : Nat) (rest : List Char), s.length < fuel →
      parseStringBody fuel (dumpStrBody s ++ quoteChar :: rest) = some (s, rest) := by
  induction s with
  | nil =>
    intro fuel rest h
    cases fuel with
    | zero => omega
    | succ f => rfl
  | cons c cs ih =>
    intro fuel rest h
    cases fuel with
    | zero => omega
    | succ f =>
      have hsplit : dumpStrBody (c :: cs) ++ quoteChar :: rest =
          escapeChar c ++ (dumpStrBody cs ++ quoteChar :: rest) := by
        simp [dumpStrBody, List.append_assoc]
      rw [hsplit, parseStringBody_escapeChar,
        ih f rest (by simp only [List.length_cons] at h; omega)]
      rfl

theorem jsize_pos (v : Json) : 1 ≤ jsize v := by
  cases v <;> simp [jsize]

theorem skipWs_space (l : List Char) : skipWs (' ' :: l) = skipWs l := rfl

set_option maxHeartbeats 1000000 in
theorem escapeChar_length_pos (c : Char) : 1 ≤ (escapeChar c).length := by
  simp only [escapeChar]
  split_ifs <;> simp [toHex4]

theorem dumpStrBody_length (s : List Char) : s.length ≤ (dumpStrBody s).length := by
  induction s with
  | nil => simp [dumpStrBody]
  | cons c cs ih =>
    have := escapeChar_length_pos c
    simp only [dumpStrBody, List.length_append, List.length_cons]
    omega

mutual

theorem jsize_le_length : ∀ v : Json, jsize v ≤ (dumpsVal v).length
  | .null => by simp [jsize, dumpsVal]
  | .bool b => by cases b <;> simp [jsize, dumpsVal]
  | .str s => by simp [jsize, dumpsVal, dumpStr]
  | .arr .nil => by simp [jsize, jsizeL, dumpsVal]
  | .arr (.cons x xs) => by
    have h1 := jsize_le_length x
    have h2 := jsizeL_le_length xs
    simp only [jsize, jsizeL, dumpsVal, List.length_append, List.length_cons]
    omega
  | .obj .nil => by simp [jsize, jsizeM, dumpsVal]
  | .obj (.cons k v kvs) => by
    have h1 := jsize_le_length v
    have h2 := jsizeM_le_length kvs
    simp only [jsize, jsizeM, dumpsVal, dumpStr, List.length_append, List.length_cons]
    omega

theorem jsizeL_le_length : ∀ xs : JsonList, jsizeL xs ≤ (dumpsElemsRest xs).length
  | .nil => by simp [jsizeL, dumpsElemsRest]
  | .cons x xs => by
    have h1 := jsize_le_length x
    have h2 := jsizeL_le_length xs
    simp only [jsizeL, dumpsElemsRest, List.length_append, List.length_cons]
    omega

theorem jsizeM_le_length : ∀ kvs : JsonObj, jsizeM kvs ≤ (dumpsMembersRest kvs).length
  | .nil => by simp [jsizeM, dumpsMembersRest]
  | .cons k v kvs => by
    have h1 := jsize_le_length v
    have h2 := jsizeM_le_length kvs
    simp only [jsizeM, dumpsMembersRest, dumpStr, List.length_append, List.length_cons]
    omega

end

theorem skipWs_not_ws {c : Char} (t : List Char) (h : isWsChar c = false) :
    skipWs (c :: t) = c :: t := by
  simp [skipWs, h]

theorem parseValue_space : ∀ (fuel : Nat) (l : List Char),
    parseValue fuel (' ' :: l) = parseValue fuel l
  | 0, _ => rfl
  | _ + 1, _ => rfl

theorem parseElems_space (fuel : Nat) (l : List Char) :
    parseElems (fuel + 1) (' ' :: l) = parseElems (fuel + 1) l := by
  simp only [parseElems, parseValue_space]

theorem parseMembers_space (fuel : Nat) (l : List Char) :
    parseMembers (fuel + 1) (' ' :: l) = parseMembers (fuel + 1) l := by
  simp only [parseMembers, skipWs_space]

/-- Serialized values start with a character no structural token or
whitespace test can mistake. -/
theorem dumpsVal_head (v : Json) : ∃ h t, dumpsVal v = h :: t ∧ isWsChar h = false ∧
    h ≠ ']' ∧ h ≠ ',' ∧ h ≠ ':' ∧ h ≠ rbraceChar := by
  cases v with
  | null => exact ⟨'n', _, rfl, by decide, by decide, by decide, by decide, by decide⟩
  | bool b =>
    cases b
    · exact ⟨'f', _, rfl, by decide, by decide, by decide, by decide, by decide⟩
    · exact ⟨'t', _, rfl, by decide, by decide, by decide, by decide, by decide⟩
  | str s =>
    refine ⟨quoteChar, dumpStrBody s.data ++ [quoteChar], ?_, by decide, by decide, by decide,
      by decide, by decide⟩
    simp [dumpsVal, dumpStr]
  | arr xs =>
    cases xs with
    | nil => exact ⟨'[', _, rfl, by decide, by decide, by decide, by decide, by decide⟩
    | cons x xs =>
      refine ⟨'[', (dumpsVal x ++ dumpsElemsRest xs) ++ [']'], ?_, by decide, by decide, by decide,
        by decide, by decide⟩
      simp [dumpsVal]
  | obj kvs =>
    cases kvs with
    | nil => exact ⟨lbraceChar, _, rfl, by decide, by decide, by decide, by decide, by decide⟩
    | cons k v kvs =>
      refine ⟨lbraceChar, (dumpStr k ++ ':' :: ' ' :: dumpsVal v ++ dumpsMembersRest kvs) ++
        [rbraceChar], ?_, by decide, by decide, by decide, by decide, by decide⟩
      simp [dumpsVal]

theorem parseValue_null (f : Nat) (r : List Char) :
    parseValue (f + 1) ('n' :: 'u' :: 'l' :: 'l' :: r) = some (.null, r) := rfl

theorem parseValue_true (f : Nat) (r : List Char) :
    parseValue (f + 1) ('t' :: 'r' :: 'u' :: 'e' :: r) = some (.bool true, r) := rfl

theorem parseValue_false (f : Nat) (r : List Char) :
    parseValue (f + 1) ('f' :: 'a' :: 'l' :: 's' :: 'e' :: r) = some (.bool false, r) := rfl

theorem parseValue_quote (f : Nat) (l : List Char) :
    parseValue (f + 1) (quoteChar :: l) =
      (parseStringBody (l.length + 1) l).map (fun p => (.str (String.mk p.1), p.2)) := rfl

theorem parseValue_arr_nil (f : Nat) (r : List Char) :
    parseValue (f + 1) ('[' :: ']' :: r) = some (.arr .nil, r) := rfl

theorem parseValue_arr_cons (f : Nat) (d : Char) (r : List Char) (hw : isWsChar d = false)
    (hne : d ≠ ']') :
    parseValue (f + 1) ('[' :: d :: r) =
      (parseElems f (d :: r)).map (fun p => (.arr p.1, p.2)) := by
  have h0 : parseValue (f + 1) ('[' :: d :: r) =
      match skipWs (d :: r) with
      | [] => none
      | e :: r₂ =>
        if e = ']' then some (.arr .nil, r₂)
        else (parseElems f (e :: r₂)).map (fun p => (.arr p.1, p.2)) := rfl
  rw [h0, skipWs_not_ws _ hw]
  dsimp only
  rw [if_neg hne]

theorem parseValue_obj_nil (f : Nat) (r : List Char) :
    parseValue (f + 1) (lbraceChar :: rbraceChar :: r) = some (.obj .nil, r) := rfl

theorem parseValue_obj_step (f : Nat) (r : List Char) :
    parseValue (f + 1) (lbraceChar :: quoteChar :: r) =
      (parseMembers f (quoteChar :: r)).map (fun p => (.obj p.1, p.2)) := rfl

theorem parseElems_succ (f : Nat) (l : List Char) :
    parseElems (f + 1) l =
      match parseValue f l with
      | none => none
      | some (v, rest) =>
        match skipWs rest with
        | [] => none
        | d :: rest₂ =>
          if d = ',' then (parseElems f rest₂).map (fun p => (.cons v p.1, p.2))
          else if d = ']' then some (.cons v .nil, rest₂)
          else none := rfl

theorem parseMembers_quote (f : Nat) (l : List Char) :
    parseMembers (f + 1) (quoteChar :: l) =
      match parseStringBody (l.length + 1) l with
      | none => none
      | some (k, rest₂) =>
        match skipWs rest₂ with
        | [] => none
        | d :: rest₃ =>
          if d = ':' then
            match parseValue f rest₃ with
            | none => none
            | some (v, rest₄) =>
              match skipWs rest₄ with
              | [] => none
              | e :: rest₅ =>
                if e = ',' then
                  (parseMembers f rest₅).map (fun p => (.cons (String.mk k) v p.1, p.2))
                else if e = rbraceChar then some (.cons (String.mk k) v .nil, rest₅)
                else none
          else none := rfl

theorem parse_dumps_aux (fuel : Nat) :
    (∀ v rest, jsize v ≤ fuel → parseValue fuel (dumpsVal v ++ rest) = some (v, rest)) ∧
    (∀ x xs rest, 1 + jsize x + jsizeL xs ≤ fuel →
      parseElems fuel (dumpsVal x ++ (dumpsElemsRest xs ++ ']' :: rest)) =
        some (.cons x xs, rest)) ∧
    (∀ k v kvs rest, 1 + jsize v + jsizeM kvs ≤ fuel →
      parseMembers fuel (quoteChar :: (dumpStrBody k.data ++
          (quoteChar :: ':' :: ' ' :: (dumpsVal v ++ (dumpsMembersRest kvs ++ rbraceChar :: rest))))) =
        some (.cons k v kvs, rest)) := by
  induction fuel with
  | zero =>
    refine ⟨fun v rest h => ?_, fun x xs rest h => ?_, fun k v kvs rest h => ?_⟩
    · have := jsize_pos v; omega
    · have := jsize_pos x; omega
    · have := jsize_pos v; omega
  | succ f ih =>
    obtain ⟨ihV, ihE, ihM⟩ := ih
    refine ⟨fun v rest hsz => ?_, fun x xs rest hsz => ?_, fun k v kvs rest hsz => ?_⟩
    · cases v with
      | null =>
        simp only [dumpsVal, List.cons_append, List.nil_append]
        exact parseValue_null f rest
      | bool b =>
        cases b
        · simp only [dumpsVal, List.cons_append, List.nil_append]
          exact parseValue_false f rest
        · simp only [dumpsVal, List.cons_append, List.nil_append]
          exact parseValue_true f rest
      | str s =>
        have he : dumpsVal (.str s) ++ rest =
            quoteChar :: (dumpStrBody s.data ++ quoteChar :: rest) := by
          simp [dumpsVal, dumpStr, List.append_assoc]
        rw [he, parseValue_quote,
          parseStringBody_dumpStrBody s.data _ rest
            (by have := dumpStrBody_length s.data
                simp only [List.length_append, List.length_cons]; omega)]
        rfl
      | arr xs =>
        cases xs with
        | nil =>
          simp only [dumpsVal, List.cons_append, List.nil_append]
          exact parseValue_arr_nil f rest
        | cons x xs =>
          obtain ⟨hd, tl, hht, hw, hne, _, _, _⟩ := dumpsVal_head x
          have he : dumpsVal (.arr (.cons x xs)) ++ rest =
              '[' :: (dumpsVal x ++ (dumpsElemsRest xs ++ ']' :: rest)) := by
            simp [dumpsVal, List.append_assoc]
          rw [he, hht]
          simp only [List.cons_append]
          rw [parseValue_arr_cons f hd _ hw hne, ← List.cons_append, ← hht,
            ihE x xs rest (by simp only [jsize, jsizeL] at hsz; omega)]
          rfl
      | obj kvs =>
        cases kvs with
        | nil =>
          simp only [dumpsVal, List.cons_append, List.nil_append]
          exact parseValue_obj_nil f rest
        | cons k v kvs =>
          have he : dumpsVal (.obj (.cons k v kvs)) ++ rest =
              lbraceChar :: quoteChar :: (dumpStrBody k.data ++
                (quoteChar :: ':' :: ' ' :: (dumpsVal v ++
                  (dumpsMembersRest kvs ++ rbraceChar :: rest)))) := by
            simp [dumpsVal, dumpStr, List.append_assoc]
          rw [he, parseValue_obj_step,
            ihM k v kvs rest (by simp only [jsize, jsizeM] at hsz; omega)]
          rfl
    · rw [parseElems_succ, ihV x _ (by have := jsize_pos x; omega)]
      dsimp only
      cases xs with
      | nil =>
        simp only [dumpsElemsRest, List.nil_append]
        rw [skipWs_not_ws _ (by decide)]
        dsimp only
        rw [if_neg (by decide), if_pos rfl]
      | cons y ys =>
        simp only [dumpsElemsRest, List.cons_append, List.append_assoc]
        rw [skipWs_not_ws _ (by decide)]
        dsimp only
        rw [if_pos rfl]
        cases f with
        | zero =>
          exfalso
          have := jsize_pos x; have := jsize_pos y
          simp only [jsizeL] at hsz; omega
        | succ f2 =>
          rw [parseElems_space,
            ihE y ys rest (by simp only [jsizeL] at hsz; omega)]
          rfl
    · rw [parseMembers_quote,
        parseStringBody_dumpStrBody k.data _ _
          (by have := dumpStrBody_length k.data
              simp only [List.length_append, List.length_cons]; omega)]
      dsimp only
      rw [skipWs_not_ws _ (by decide)]
      dsimp only
      rw [if_pos rfl, parseValue_space, ihV v _ (by have := jsize_pos v; omega)]
      dsimp only
      cases kvs with
      | nil =>
        simp only [dumpsMembersRest, List.nil_append]
        rw [skipWs_not_ws _ (by decide)]
        dsimp only
        rw [if_neg (by decide), if_pos rfl]
      | cons k2 v2 kvs2 =>
        simp only [dumpsMembersRest, List.cons_append, List.append_assoc]
        rw [skipWs_not_ws _ (by decide)]
        dsimp only
        rw [if_pos rfl]
        cases f with
        | zero =>
          exfalso
          have := jsize_pos v; have := jsize_pos v2
          simp only [jsizeM] at hsz; omega
        | succ f2 =>
          rw [parseMembers_space]
          have he2 : dumpStr k2 ++ ':' :: ' ' :: (dumpsVal v2 ++
              (dumpsMembersRest kvs2 ++ rbraceChar :: rest)) =
              quoteChar :: (dumpStrBody k2.data ++ (quoteChar :: ':' :: ' ' ::
                (dumpsVal v2 ++ (dumpsMembersRest kvs2 ++ rbraceChar :: rest)))) := by
            simp [dumpStr, List.append_assoc]
          rw [he2, ihM k2 v2 kvs2 rest (by simp only [jsizeM] at hsz; omega)]
          rfl

/-- Parsing the serialization of any JSON value gives it back. -/
theorem loads_dumps (v : Json) : loads (dumps v) = some v := by
  have h := (parse_dumps_aux ((dumpsVal v).length + 1)).1 v []
    (by have := jsize_le_length v; omega)
  rw [List.append_nil] at h
  simp only [loads, dumps]
  rw [h]
  rfl

/-- `parse_json` undoes `json.dumps` on any JSON value. -/
theorem parse_json_dumps (v : Json) : parse_json (some (dumps v)) = v := by
  simp [parse_json, loads_dumps]

/-!
The claims.
-/

/-- Claim C1: for every tier in the allow-list and every mapping of form
field values, the record assembled by the edit-portfolio POST handler has
key set exactly header, about, projects, skills, contact, plus
`paid_pages` if and only if the tier is Paid or Premium, plus
`premium_pages` if and only if it is Premium. -/
theorem c1_build_keys (t : String) (f : FormData)
    (ht : t = "Free" ∨ t = "Paid" ∨ t = "Premium") :
    jsonKeys (buildData f t) =
      ["header", "about", "projects", "skills", "contact"]
        ++ (if t = "Paid" ∨ t = "Premium" then ["paid_pages"] else [])
        ++ (if t = "Premium" then ["premium_pages"] else []) := by
  rcases ht with rfl | rfl | rfl <;> rfl

theorem c1_build_keys_witness :
    jsonKeys (buildData fSample "Premium") =
      ["header", "about", "projects", "skills", "contact"]
        ++ (if ("Premium" : String) = "Paid" ∨ ("Premium" : String) = "Premium"
            then ["paid_pages"] else [])
        ++ (if ("Premium" : String) = "Premium" then ["premium_pages"] else []) :=
  c1_build_keys "Premium" fSample (by decide)

/-- Claim C6: decoding the serialized form of any record the builder
produces yields it back unchanged (`parse_json` after `json.dumps`). -/
theorem c6_roundtrip (f : FormData) (pt : String) :
    parse_json (some (dumps (buildData f pt))) = buildData f pt :=
  parse_json_dumps (buildData f pt)

/-- Claim C9: get-or-create is idempotent under sequential use: a second
access returns a row with the same id and performs no insertion (the
state is unchanged). -/
theorem c9_getOrCreate_idempotent (s : AppState) (t t₂ : String) :
    ((getOrCreate (getOrCreate s t).1 t₂).2).id = ((getOrCreate s t).2).id ∧
    (getOrCreate (getOrCreate s t).1 t₂).1 = (getOrCreate s t).1 := by
  cases hp : s.portfolio <;> simp [getOrCreate, hp]

/-- Claim C8: the public-portfolio view selection is NoPortfolio exactly
when the user has no portfolio row; otherwise it dispatches strictly on
`portfolio_type`, and any value outside the known set falls back to the
NoPortfolio presentation (total function — never an exception). -/
theorem c8_select_view :
    selectView none = .NoPortfolio ∧
    (∀ p : PortfolioRec, p.portfolio_type = "Free" → selectView (some p) = .FreeView) ∧
    (∀ p : PortfolioRec, p.portfolio_type = "Paid" → selectView (some p) = .PaidView) ∧
    (∀ p : PortfolioRec, p.portfolio_type = "Premium" → selectView (some p) = .PremiumView) ∧
    (∀ p : PortfolioRec, p.portfolio_type ≠ "Free" → p.portfolio_type ≠ "Paid" →
      p.portfolio_type ≠ "Premium" → selectView (some p) = .NoPortfolio) := by
  refine ⟨rfl, ?_, ?_, ?_, ?_⟩
  · intro p h
    simp [selectView, h]
  · intro p h
    simp [selectView, h]
  · intro p h
    simp [selectView, h]
  · intro p h1 h2 h3
    simp [selectView, h1, h2, h3]

theorem c8_select_view_witness :
    selectView none = .NoPortfolio ∧
    selectView (some ⟨1, 1, "Paid", "x"⟩) = .PaidView ∧
    selectView (some ⟨1, 1, "Enterprise", "x"⟩) = .NoPortfolio :=
  ⟨c8_select_view.1,
   c8_select_view.2.2.1 _ rfl,
   c8_select_view.2.2.2.2 _ (by decide) (by decide) (by decide)⟩

/-- Claim C10 (implicit): select_plan with a valid tier by a user who
already owns a portfolio writes the same value to both
`user.subscription_type` and `portfolio.portfolio_type`, so the two
fields are equal after every successful tier change. -/
theorem c10_selectPlan_syncs (s : AppState) (t : String) (p : PortfolioRec)
    (ht : t = "Free" ∨ t = "Paid" ∨ t = "Premium") (hp : s.portfolio = some p) :
    (selectPlan s t).1.user.subscription_type = t ∧
    (selectPlan s t).1.portfolio.map PortfolioRec.portfolio_type = some t ∧
    (selectPlan s t).2 = true := by
  simp [selectPlan, if_pos ht, hp]

theorem c10_selectPlan_syncs_witness :
    (selectPlan sPremium "Free").1.user.subscription_type = "Free" ∧
    (selectPlan sPremium "Free").1.portfolio.map PortfolioRec.portfolio_type = some "Free" ∧
    (selectPlan sPremium "Free").2 = true :=
  c10_selectPlan_syncs sPremium "Free" pPremium (by decide) rfl

/-- Claim C3 counterexample: valid JSON of non-record shape is NOT
replaced by the empty record — `parse_json` on the serialized array
`["a"]` returns that array, not the empty dict the claim requires for
"wrong shape" input. -/
theorem c3_counterexample :
    parse_json (some "[\"a\"]") ≠ jobj [] ∧
    parse_json (some "[\"a\"]") = jarr [Json.str "a"] := by decide

/-- Claim C3 (amended): `parse_json` is total (never raises); it returns
the empty record on absent input (`None`) and on any input `json.loads`
fails to decode, and returns the decoded value unchanged — whatever its
shape — on any input `json.loads` accepts. -/
theorem c3_amended :
    parse_json none = jobj [] ∧
    (∀ s : String, loads s = none → parse_json (some s) = jobj []) ∧
    (∀ (s : String) (v : Json), loads s = some v → parse_json (some s) = v) := by
  refine ⟨rfl, fun s h => ?_, fun s v h => ?_⟩ <;> simp [parse_json, h]

theorem c3_amended_witness :
    parse_json none = jobj [] ∧
    parse_json (some "oops") = jobj [] ∧
    parse_json (some "[\"a\"]") = jarr [Json.str "a"] :=
  ⟨c3_amended.1, c3_amended.2.1 "oops" (by decide),
   c3_amended.2.2 "[\"a\"]" (jarr [Json.str "a"]) (by decide)⟩

/-- Claim C4 counterexample: the skills entry is NOT trimmed — for the
submitted field `"go, rust"` the built record stores `" rust"` with its
leading space, not the trimmed split the claim describes. -/
theorem c4_counterexample :
    jsonGet (buildData fSample "Free") "skills" ≠
      some (jarr ((specSkillsModel "go, rust").map Json.str)) ∧
    jsonGet (buildData fSample "Free") "skills" =
      some (jarr [Json.str "go", Json.str " rust"]) := by decide

/-- Claim C4 (amended): the skills entry of the built record is the
comma-split of the skills field with NO trimming, and is the empty
sequence when the field is absent or empty. -/
theorem c4_amended (f : FormData) (pt : String) :
    (f.skills = none ∨ f.skills = some "" →
      jsonGet (buildData f pt) "skills" = some (jarr [])) ∧
    (∀ s, f.skills = some s → s ≠ "" →
      jsonGet (buildData f pt) "skills" = some (jarr ((pySplitComma s).map Json.str))) := by
  constructor
  · intro h
    rcases h with h | h <;>
      simp [buildData, skillsList, h, jsonGet, jobj, jarr, JsonObj.ofList, JsonObj.lookup]
  · intro s hs hne
    simp [buildData, skillsList, hs, hne, jsonGet, jobj, jarr, JsonObj.ofList, JsonObj.lookup]

theorem c4_amended_witness :
    jsonGet (buildData fSample "Free") "skills" =
      some (jarr ((pySplitComma "go, rust").map Json.str)) :=
  (c4_amended fSample "Free").2 "go, rust" rfl (by decide)

/-- Claim C5: every edit submission rewrites the stored sections_data
wholesale: for every prior state (whatever its stored record) and every
form whose submitted tier resolves to Free, the stored record afterwards
is exactly the serialization of the freshly built record — a function of
the submitted fields alone — and holds no paid or premium keys. -/
theorem c5_wholesale_overwrite (s : AppState) (f : FormData)
    (hf : f.portfolio_type.getD "Free" = "Free") :
    (editPortfolioPost s f).portfolio.map PortfolioRec.sections_data =
      some (dumps (buildData f "Free")) ∧
    "paid_pages" ∉ jsonKeys (buildData f "Free") ∧
    "premium_pages" ∉ jsonKeys (buildData f "Free") := by
  refine ⟨?_, ?_, ?_⟩
  · cases hp : s.portfolio <;> simp [editPortfolioPost, getOrCreate, hp, hf]
  · have hk : jsonKeys (buildData f "Free") =
        ["header", "about", "projects", "skills", "contact"] := rfl
    rw [hk]
    decide
  · have hk : jsonKeys (buildData f "Free") =
        ["header", "about", "projects", "skills", "contact"] := rfl
    rw [hk]
    decide

theorem c5_wholesale_overwrite_witness :
    (editPortfolioPost sPremium fSample).portfolio.map PortfolioRec.sections_data =
      some (dumps (buildData fSample "Free")) ∧
    "paid_pages" ∉ jsonKeys (buildData fSample "Free") ∧
    "premium_pages" ∉ jsonKeys (buildData fSample "Free") :=
  c5_wholesale_overwrite sPremium fSample rfl

/-- Claim C2 counterexample: the edit-portfolio POST handler does NOT
reject the out-of-allow-list tier `"Enterprise"` — it stores it into
`portfolio.portfolio_type` and rewrites `sections_data`, so state IS
mutated, contradicting the claim. -/
theorem c2_counterexample :
    (editPortfolioPost sPremium fEnterprise).portfolio.map PortfolioRec.portfolio_type =
      some "Enterprise" ∧
    sPremium.portfolio.map PortfolioRec.portfolio_type = some "Premium" ∧
    editPortfolioPost sPremium fEnterprise ≠ sPremium := by decide

/-- Claim C2 (amended): for every tier outside the allow-list,
select_plan rejects the operation leaving the state unchanged, but the
edit-portfolio POST handler performs no tier validation: it stores the
submitted tier into `portfolio_type` and overwrites `sections_data` with
the record built for that tier (which gates sections as for a non-paid
tier). -/
theorem c2_amended (s : AppState) (t : String) (f : FormData)
    (ht : ¬(t = "Free" ∨ t = "Paid" ∨ t = "Premium")) (hf : f.portfolio_type = some t) :
    selectPlan s t = (s, false) ∧
    (editPortfolioPost s f).portfolio.map PortfolioRec.portfolio_type = some t ∧
    (editPortfolioPost s f).portfolio.map PortfolioRec.sections_data =
      some (dumps (buildData f t)) := by
  refine ⟨?_, ?_, ?_⟩
  · simp [selectPlan, if_neg ht]
  · cases hp : s.portfolio <;> simp [editPortfolioPost, getOrCreate, hp, hf]
  · cases hp : s.portfolio <;> simp [editPortfolioPost, getOrCreate, hp, hf]

theorem c2_amended_witness :
    selectPlan sPremium "Enterprise" = (sPremium, false) ∧
    (editPortfolioPost sPremium fEnterprise).portfolio.map PortfolioRec.portfolio_type =
      some "Enterprise" ∧
    (editPortfolioPost sPremium fEnterprise).portfolio.map PortfolioRec.sections_data =
      some (dumps (buildData fEnterprise "Enterprise")) :=
  c2_amended sPremium "Enterprise" fEnterprise (by decide) rfl

/-- Claim C7 counterexample: the save is NOT atomic in the
portfolio-creation path — lines 193-196 commit the fresh row separately
from the save commit of line 223, so a PersistenceError at the save
commit leaves the newly created empty portfolio row behind: the state
after the error differs from the state before the operation. -/
theorem c7_counterexample :
    editPortfolioFallible sNoPortfolio fSample (fun n => n == 0) =
      .error (getOrCreate sNoPortfolio "Free").1 ∧
    (getOrCreate sNoPortfolio "Free").1 ≠ sNoPortfolio := by decide

/-- Claim C7 (amended): when a portfolio row already exists, the save is
a single commit and a PersistenceError leaves the state exactly as it
was; when no row exists, the creation is committed first, so a
PersistenceError at the save commit leaves the created empty portfolio
row committed (a partial write). -/
theorem c7_amended (s : AppState) (f : FormData) (ok : Nat → Bool) :
    (∀ p, s.portfolio = some p → ∀ s', editPortfolioFallible s f ok = .error s' → s' = s) ∧
    (s.portfolio = none → ok 0 = true → ok 1 = false →
      editPortfolioFallible s f ok = .error (getOrCreate s (f.portfolio_type.getD "Free")).1) := by
  constructor
  · intro p hp s' h
    cases hok : ok 0 <;> simp [editPortfolioFallible, hp, hok] at h
    exact h.symm
  · intro hp h0 h1
    simp [editPortfolioFallible, getOrCreate, hp, h0, h1]

set_option maxRecDepth 4000 in
theorem c7_amended_witness :
    sPremium = sPremium ∧
    editPortfolioFallible sNoPortfolio fSample (fun n => n == 0) =
      .error (getOrCreate sNoPortfolio (fSample.portfolio_type.getD "Free")).1 :=
  ⟨(c7_amended sPremium fSample (fun _ => false)).1 pPremium rfl sPremium (by decide),
   (c7_amended sNoPortfolio fSample (fun n => n == 0)).2 rfl rfl rfl⟩
